import Mathlib

/-!
Shallow embedding of the IMG archive engine of `gimgtool.py` (class `IMGTool`).

A byte store (an IMG file on disk) is modelled as `List Nat`, one `Nat` per
byte (values below 256 where the source writes bytes).  A possibly missing
file is `Option (List Nat)` with `none` standing for "the path does not name
an existing regular file" (`os.path.isfile` returning `False`).

Python operations are translated as follows:
- `f.read(n)` after `f.seek(off)` returns the available bytes, at most `n`;
- `struct.unpack('<I', f.read(4))` returns `some v` or `none` for the raised
  `struct.error` when fewer than 4 bytes remain;
- writing a file is modelled by returning the byte list written;
- unhandled exceptions are modelled by an `Option`-`none` result.
-/

/-- Sector size from the source: `SECTOR_SIZE = 2048`. -/
def SECTOR_SIZE : Nat := 2048

/-- The `b'VER2'` magic bytes (ASCII `V`, `E`, `R`, `2`). -/
def verMagic : List Nat := [86, 69, 82, 50]

/-- `struct.pack('<I', v)`: the 4 little-endian bytes of `v` (the source
raises for `v ≥ 2^32`; we keep the low 32 bits, and every theorem that needs
the exact value carries a `< 2^32` bound). -/
def u32le (v : Nat) : List Nat := [v % 256, v / 256 % 256, v / 65536 % 256, v / 16777216 % 256]

/-- `f.seek(off); f.read(n)`: the at-most-`n` bytes of `s` starting at `off`. -/
def readBytes (s : List Nat) (off n : Nat) : List Nat := (s.drop off).take n

/-- `f.seek(off); struct.unpack('<I', f.read(4))[0]`: `none` models the
`struct.error` raised when fewer than 4 bytes remain at `off`. -/
def readU32 (s : List Nat) (off : Nat) : Option Nat :=
  match s.drop off with
  | b0 :: b1 :: b2 :: b3 :: _ => some (b0 + 256 * b1 + 65536 * b2 + 16777216 * b3)
  | _ => none

/-- The bytes Python `bytes.strip()` removes: `b' \t\n\r\x0b\x0c'`. -/
def isSpaceByte (b : Nat) : Bool :=
  b == 32 || b == 9 || b == 10 || b == 13 || b == 11 || b == 12

/-- Python `bytes.strip()`: drop leading and trailing ASCII whitespace. -/
def stripBytes (bs : List Nat) : List Nat :=
  ((bs.dropWhile isSpaceByte).reverse.dropWhile isSpaceByte).reverse

/-- Name decoding used by `extract_img` (gimgtool.py line 145):
`filename_bytes.split(b'\x00')[0].strip().decode('ascii', errors='ignore')` —
bytes up to the first NUL, whitespace-stripped, non-ASCII bytes dropped. -/
def decodeNameExtract (bs : List Nat) : List Nat :=
  (stripBytes (bs.takeWhile (fun b => b ≠ 0))).filter (fun b => b < 128)

/-- Name decoding used by `list_img_filtered` (gimgtool.py line 471):
`f.read(24).rstrip(b'\x00').decode('ascii', errors='ignore')` — only the
trailing NUL padding is removed, no whitespace strip, embedded NULs kept
(NUL is ASCII so `errors='ignore'` keeps it). -/
def decodeNameList (bs : List Nat) : List Nat :=
  ((bs.reverse.dropWhile (fun b => b == 0)).reverse).filter (fun b => b < 128)

/-- `detect_img_format` (gimgtool.py lines 44-73).  `none` input models a
missing file (`os.path.isfile` false). -/
def detect_img_format (store : Option (List Nat)) : String :=
  match store with
  | none => "INVALID"
  | some s =>
    if s.take 4 = verMagic then "VER2"
    else if s.length < 32 then "INVALID"
    else
      match readU32 s 0, readU32 s 4 with
      | some first_offset, some first_size =>
        if 0 < first_offset ∧ 0 < first_size ∧ first_size < s.length then "VER1" else "INVALID"
      | _, _ => "INVALID"

/-- The body of the VER1 entry-count `while` loop of `get_entry_count`
(gimgtool.py lines 87-107), as structural recursion on an iteration budget.
Every iteration either stops or advances `offset` by 32 while the loop
requires `offset < s.length`, so a budget of `s.length / 32 + 1` makes the
budget-exhausted branch coincide with the loop exit (`offset ≥ s.length`). -/
def scanGo (s : List Nat) : Nat → Nat → Nat → Nat
  | 0, _, count => count
  | fuel + 1, offset, count =>
    if offset < s.length then
      match readU32 s offset, readU32 s (offset + 4) with
      | some file_offset, some file_size_entry =>
        if file_offset = 0 ∧ file_size_entry = 0 then count
        else if 0 < file_offset ∧ 0 < file_size_entry then
          if count + 1 > 10000 then count + 1
          else scanGo s fuel (offset + 32) (count + 1)
        else count
      | _, _ => count
    else count

/-- `get_entry_count` (gimgtool.py lines 75-110).  For `VER2` the count is the
`uint32` after the magic (`none` models the uncaught `struct.error` on a
truncated header); for `VER1` the directory is scanned; any other format
token falls through to `return 0`. -/
def get_entry_count (s : List Nat) (format_type : String) : Option Nat :=
  if format_type = "VER2" then readU32 s 4
  else if format_type = "VER1" then some (scanGo s (s.length / 32 + 1) 0 0)
  else some 0

/-- Directory start offset: 8 for VER2, 0 for VER1 (gimgtool.py line 129). -/
def dirStartOf (format_type : String) : Nat := if format_type = "VER2" then 8 else 0

/-- One iteration of the extraction loop (gimgtool.py lines 134-167): decode
the 32-byte directory record at `dir_start + i*32`, skip empty entries, and
read the payload at `file_offset * SECTOR_SIZE`.  `none` means nothing was
written for this index (skipped entry or caught per-entry `struct.error`). -/
def extractEntry (s : List Nat) (dir_start i : Nat) : Option (List Nat × List Nat) :=
  let dir_offset := dir_start + i * 32
  match readU32 s dir_offset, readU32 s (dir_offset + 4) with
  | some file_offset, some file_size =>
    let filename := decodeNameExtract (readBytes s (dir_offset + 8) 24)
    if filename = [] ∨ file_size = 0 then none
    else some (filename, readBytes s (file_offset * SECTOR_SIZE) file_size)
  | _, _ => none

/-- `extract_img` (gimgtool.py lines 112-170).  The result is
`some (returned_bool, files_written_in_order)`; `none` models the uncaught
`struct.error` from `get_entry_count` on a truncated VER2 header.  The
returned `Bool` is the Python return value (the source returns `True` after
the loop regardless of how many entries were written). -/
def extract_img (store : Option (List Nat)) : Option (Bool × List (List Nat × List Nat)) :=
  match store with
  | none => some (false, [])
  | some s =>
    let format_type := detect_img_format (some s)
    if format_type = "INVALID" then some (false, [])
    else
      match get_entry_count s format_type with
      | none => none
      | some entry_count =>
        some (true, (List.range entry_count).filterMap (extractEntry s (dirStartOf format_type)))

/-- `header_size = 8 if format_type == "VER2" else 0` (gimgtool.py line 195). -/
def headerSizeOf (format_type : String) : Nat := if format_type = "VER2" then 8 else 0

/-- `dir_size = header_size + len(files) * 32` (gimgtool.py line 196). -/
def dirSizeOf (format_type : String) (n : Nat) : Nat := headerSizeOf format_type + n * 32

/-- `data_start_sector = (dir_size + SECTOR_SIZE - 1) // SECTOR_SIZE`
(gimgtool.py line 197). -/
def dataStartSector (format_type : String) (n : Nat) : Nat :=
  (dirSizeOf format_type n + SECTOR_SIZE - 1) / SECTOR_SIZE

/-- `sectors_needed = (filesize + SECTOR_SIZE - 1) // SECTOR_SIZE`
(gimgtool.py line 221). -/
def sectorsNeeded (filesize : Nat) : Nat := (filesize + SECTOR_SIZE - 1) / SECTOR_SIZE

/-- The directory-building loop of `create_img` (gimgtool.py lines 212-232):
walk the files in order, assigning `current_sector` and advancing it by
`sectorsNeeded`; names over 24 bytes are truncated (line 219).  Each element
is `(current_sector, filesize, truncated_name)`. -/
def dirEntries : Nat → List (List Nat × List Nat) → List (Nat × Nat × List Nat)
  | _, [] => []
  | current_sector, (filename, data) :: rest =>
    (current_sector, data.length, filename.take 24)
      :: dirEntries (current_sector + sectorsNeeded data.length) rest

/-- The 24-byte name field of a directory record:
`filename.encode('ascii')[:24].ljust(24, b'\x00')` (gimgtool.py line 228). -/
def nameField (nm : List Nat) : List Nat :=
  nm.take 24 ++ List.replicate (24 - (nm.take 24).length) 0

/-- One 32-byte directory record as written by gimgtool.py lines 226-228:
two little-endian `uint32`s, then the NUL-padded 24-byte name field. -/
def encodeEntry (e : Nat × Nat × List Nat) : List Nat :=
  u32le e.1 ++ u32le e.2.1 ++ nameField e.2.2

/-- One member's payload region (gimgtool.py lines 239-247): the raw data,
then `SECTOR_SIZE - (filesize % SECTOR_SIZE)` zero bytes unless that padding
would be a whole sector (`if padding != SECTOR_SIZE`). -/
def payloadBlock (data : List Nat) : List Nat :=
  data ++
    (if SECTOR_SIZE - data.length % SECTOR_SIZE = SECTOR_SIZE then []
     else List.replicate (SECTOR_SIZE - data.length % SECTOR_SIZE) 0)

/-- VER2 header (gimgtool.py lines 201-203): magic plus entry count; VER1 has
no header. -/
def headerBytes (format_type : String) (n : Nat) : List Nat :=
  if format_type = "VER2" then verMagic ++ u32le n else []

/-- The directory table region written by the loop of gimgtool.py
lines 212-232: the 32-byte records in file order. -/
def archDir (format_type : String) (files : List (List Nat × List Nat)) : List Nat :=
  ((dirEntries (dataStartSector format_type files.length) files).map encodeEntry).flatten

/-- The zero gap between the end of the directory and the first data sector
(produced by `f.seek(data_start_byte)` past end-of-file, line 236). -/
def archPad (format_type : String) (files : List (List Nat × List Nat)) : List Nat :=
  List.replicate (dataStartSector format_type files.length * SECTOR_SIZE
    - dirSizeOf format_type files.length) 0

/-- The payload region: each member's bytes, sector-padded, in file order
(gimgtool.py lines 239-247). -/
def archPay (files : List (List Nat × List Nat)) : List Nat :=
  (files.map (fun fd => payloadBlock fd.2)).flatten

/-- The full byte store written by `create_img` (gimgtool.py lines 199-247).
The source writes the header, zero-fills up to `dir_size`, then seeks back
and overwrites exactly that zero region with the 32-byte records (offsets
`header_size + i*32`), seeks to `data_start_sector * SECTOR_SIZE`
(zero-filling the gap past end-of-file, as a seek-past-EOF write does) and
appends the payload blocks in file order — net effect: this concatenation. -/
def archiveOf (format_type : String) (files : List (List Nat × List Nat)) : List Nat :=
  headerBytes format_type files.length
    ++ archDir format_type files ++ archPad format_type files ++ archPay files

/-- `create_img` (gimgtool.py lines 172-250).  `files` is the sorted listing
of the input directory (`sorted(os.listdir(...))`, names with their byte
contents); the format token has already been upper-cased (line 179).  `none`
models the `False` returns for a bad format token or an empty directory. -/
def create_img (format_type : String) (files : List (List Nat × List Nat)) : Option (List Nat) :=
  if format_type = "VER1" ∨ format_type = "VER2" then
    if files = [] then none
    else some (archiveOf format_type files)
  else none

/-- The record of values printed by `info_img` (gimgtool.py lines 493-544). -/
structure ImgInfo where
  format : String
  entry_count : Nat
  header_size : Nat
  dir_size : Nat
  data_start_sector : Nat
  data_start_byte : Nat
  total_data_size : Nat
  overhead : Int
  efficiency : Option Nat
  deriving DecidableEq, Repr

/-- `info_img` (gimgtool.py lines 493-544).  `none` models a missing file, an
`INVALID` store (both return `False`) or the uncaught `struct.error` from
`get_entry_count`.  The totalling loop (lines 530-537) rebinds the Python
variable `file_size` — initially the store size from line 499 — to each
successfully unpacked entry size, so the state below is the pair
`(file_size, total_data_size)`; `overhead` and `efficiency` (lines 540-542)
are computed from that final, shadowed `file_size`. -/
def info_img (store : Option (List Nat)) : Option ImgInfo :=
  match store with
  | none => none
  | some s =>
    let format_type := detect_img_format (some s)
    if format_type = "INVALID" then none
    else
      match get_entry_count s format_type with
      | none => none
      | some entry_count =>
        let header_size := headerSizeOf format_type
        let dir_size := header_size + entry_count * 32
        let data_start_sector := (dir_size + SECTOR_SIZE - 1) / SECTOR_SIZE
        let loopResult := (List.range entry_count).foldl
          (fun (st : Nat × Nat) i =>
            match readU32 s (header_size + i * 32 + 4) with
            | some v => (v, st.2 + v)
            | none => st)
          (s.length, 0)
        some {
          format := format_type
          entry_count := entry_count
          header_size := header_size
          dir_size := dir_size
          data_start_sector := data_start_sector
          data_start_byte := data_start_sector * SECTOR_SIZE
          total_data_size := loopResult.2
          overhead := (loopResult.1 : Int) - (loopResult.2 : Int)
          efficiency := if 0 < loopResult.1 then some (loopResult.2 * 100 / loopResult.1) else none }

/-- Scratch-directory membership test: does the extracted member list hold a
file with this name (`os.path.isfile(os.path.join(work_dir, name))`)? -/
def hasFile (files : List (List Nat × List Nat)) (nm : List Nat) : Bool :=
  files.any (fun f => f.1 = nm)

/-- Writing one extracted member into the scratch directory: a later write
with an already present name overwrites it, otherwise the file is new. -/
def dirInsert (files : List (List Nat × List Nat)) (nd : List Nat × List Nat) :
    List (List Nat × List Nat) :=
  if hasFile files nd.1 then files.map (fun f => if f.1 = nd.1 then nd else f)
  else files ++ [nd]

/-- The scratch directory contents after `extract_img` wrote `ws` in order. -/
def scratchOf (ws : List (List Nat × List Nat)) : List (List Nat × List Nat) :=
  ws.foldl dirInsert []

/-- Byte-wise lexicographic order on names; for the ASCII names produced by
extraction this agrees with Python's `sorted` on `str`. -/
def lexLe : List Nat → List Nat → Bool
  | [], _ => true
  | _ :: _, [] => false
  | a :: as, b :: bs => if a < b then true else if b < a then false else lexLe as bs

/-- Insertion into a name-sorted file list. -/
def insertByName (f : List Nat × List Nat) : List (List Nat × List Nat) → List (List Nat × List Nat)
  | [] => [f]
  | g :: rest => if lexLe f.1 g.1 then f :: g :: rest else g :: insertByName f rest

/-- `sorted(os.listdir(input_dir))` as used by `create_img` (line 185). -/
def sortByName (files : List (List Nat × List Nat)) : List (List Nat × List Nat) :=
  files.foldr insertByName []

/-- `rename_in_img` (gimgtool.py lines 344-391).  The result is the byte
store after the operation: `none` means a failure path that never reaches
`create_img`, so the original store is untouched; `some a` means the store
was rebuilt as `a`.  The checks appear in source order: empty names (346),
new-name length (351), format detection (356), extraction into the scratch
directory (365), old name present (372), new name absent (377); only then is
the member renamed and the archive rebuilt with the same format (388). -/
def rename_in_img (store : Option (List Nat)) (old_name new_name : List Nat) :
    Option (List Nat) :=
  if old_name = [] ∨ new_name = [] then none
  else if 24 < new_name.length then none
  else
    let format_type := detect_img_format store
    if format_type = "INVALID" then none
    else
      match extract_img store with
      | none => none
      | some (ok, ws) =>
        if ok = false then none
        else
          let scratch := scratchOf ws
          if hasFile scratch old_name = false then none
          else if hasFile scratch new_name then none
          else
            create_img format_type
              (sortByName (scratch.map (fun f => if f.1 = old_name then (new_name, f.2) else f)))

/-! ### Generic helper lemmas about the byte-level primitives -/

lemma u32le_length (v : Nat) : (u32le v).length = 4 := rfl

lemma readU32_u32le (v : Nat) (rest : List Nat) (hv : v < 4294967296) :
    readU32 (u32le v ++ rest) 0 = some v := by
  have h : readU32 (u32le v ++ rest) 0 =
      some (v % 256 + 256 * (v / 256 % 256) + 65536 * (v / 65536 % 256)
        + 16777216 * (v / 16777216 % 256)) := rfl
  rw [h, Option.some.injEq]
  omega

lemma readU32_drop (s : List Nat) (off : Nat) : readU32 s off = readU32 (s.drop off) 0 := rfl

lemma readU32_add (s : List Nat) (a b : Nat) : readU32 s (a + b) = readU32 (s.drop a) b := by
  unfold readU32
  rw [List.drop_drop]

lemma readU32_replicate_zero (k : Nat) (rest : List Nat) (hk : 4 ≤ k) :
    readU32 (List.replicate k 0 ++ rest) 0 = some 0 := by
  obtain ⟨m, rfl⟩ : ∃ m, k = 4 + m := ⟨k - 4, by omega⟩
  rw [List.replicate_add]
  rfl

lemma readU32_replicate_zero' (k : Nat) (hk : 4 ≤ k) :
    readU32 (List.replicate k 0) 0 = some 0 := by
  have h := readU32_replicate_zero k [] hk
  rwa [List.append_nil] at h

/-! ### Concrete demonstration stores used by several claims -/

/-- A 72-byte VER2 store: magic, entry count 2, then two directory entries
`(sector 0, size 4, "a")` and `(sector 0, size 4, "b")` and no payload
region (the payloads alias the header bytes at offset 0). -/
def demoStore : List Nat :=
  verMagic ++ u32le 2 ++ encodeEntry (0, 4, [97]) ++ encodeEntry (0, 4, [98])

/-- The files `extract_img` writes for `demoStore`: both names decode, both
payloads are the 4 bytes at offset 0, i.e. the magic. -/
def demoWrites : List (List Nat × List Nat) := [([97], verMagic), ([98], verMagic)]

/-- Like `demoStore` but the header claims 3 entries while only 2 records
exist: index 2 hits end-of-store and raises a caught `struct.error`. -/
def demoStore3 : List Nat :=
  verMagic ++ u32le 3 ++ encodeEntry (0, 4, [97]) ++ encodeEntry (0, 4, [98])

/-! ### C10 -/

/-- C10: for every path that does not name an existing regular file (the
`none` store), `detect_img_format` returns `"INVALID"` rather than raising,
and on every existing store it returns one of the three classifications, so
detection is total over all inputs. -/
theorem c10_detect_total_on_missing_path :
    detect_img_format none = "INVALID" ∧
    ∀ s : List Nat, detect_img_format (some s) = "VER2" ∨
      detect_img_format (some s) = "VER1" ∨ detect_img_format (some s) = "INVALID" := by
  refine ⟨rfl, fun s => ?_⟩
  simp only [detect_img_format]
  split
  · exact Or.inl rfl
  · split
    · exact Or.inr (Or.inr rfl)
    · split
      · split
        · exact Or.inr (Or.inl rfl)
        · exact Or.inr (Or.inr rfl)
      · exact Or.inr (Or.inr rfl)

/-! ### C4 -/

/-- C4 counterexample: the 4-byte store consisting of just the `VER2` magic
is shorter than 32 bytes, yet `detect_img_format` classifies it `"VER2"`,
not `"INVALID"` — the signature check precedes the size check (lines 52-59),
so the claim "every store shorter than 32 bytes is Invalid" is false. -/
theorem c4_counterexample :
    verMagic.length < 32 ∧ detect_img_format (some verMagic) = "VER2" := by
  exact ⟨by decide, by decide⟩

/-- C4 as amended: every all-zero store (of any length) is classified
`"INVALID"`, and every store shorter than 32 bytes whose first 4 bytes are
not the `VER2` magic is classified `"INVALID"`. -/
theorem c4_zero_or_short_invalid :
    (∀ n : Nat, detect_img_format (some (List.replicate n 0)) = "INVALID") ∧
    (∀ s : List Nat, s.length < 32 → s.take 4 ≠ verMagic →
      detect_img_format (some s) = "INVALID") := by
  constructor
  · intro n
    have h1 : (List.replicate n 0).take 4 ≠ verMagic := by
      rw [List.take_replicate]
      intro h
      have h4 : min 4 n = 4 := by simpa [verMagic] using congrArg List.length h
      rw [h4] at h
      simp [verMagic, List.replicate] at h
    simp only [detect_img_format, if_neg h1]
    by_cases h2 : (List.replicate n 0).length < 32
    · rw [if_pos h2]
    · rw [if_neg h2]
      have hn : 32 ≤ n := by simpa using Nat.le_of_not_lt h2
      have e0 : readU32 (List.replicate n 0) 0 = some 0 :=
        readU32_replicate_zero' n (by omega)
      have e4 : readU32 (List.replicate n 0) 4 = some 0 := by
        have h5 : (4 : Nat) = 4 + 0 := rfl
        rw [h5, readU32_add, List.drop_replicate]
        exact readU32_replicate_zero' (n - 4) (by omega)
      rw [e0, e4]
      simp
  · intro s h1 h2
    simp only [detect_img_format, if_neg h2, if_pos h1]

/-- Witness for `c4_zero_or_short_invalid` at concrete inputs. -/
theorem c4_witness :
    detect_img_format (some (List.replicate 3 0)) = "INVALID" ∧
    detect_img_format (some [1, 2, 3]) = "INVALID" :=
  ⟨c4_zero_or_short_invalid.1 3,
   c4_zero_or_short_invalid.2 [1, 2, 3] (by decide) (by decide)⟩

/-! ### C2 -/

/-- The two members of the specified scenario: `a.dat` with 10 bytes and
`b.dat` with 5000 bytes (names as ASCII bytes, already in sorted order). -/
def c2Files : List (List Nat × List Nat) :=
  [([97, 46, 100, 97, 116], List.replicate 10 1),
   ([98, 46, 100, 97, 116], List.replicate 5000 2)]

/-- C2: building a VER2 archive from `a.dat` (10 bytes) and `b.dat`
(5000 bytes) gives `dir_size = 72`, `data_start_sector = 1`, the `a.dat`
entry at start sector 1 (byte offset 2048) and the `b.dat` entry at start
sector 2 (byte offset 4096); the produced archive bytes record exactly
those sectors and sizes in its directory records at offsets 8 and 40. -/
theorem c2_two_file_scenario :
    dirSizeOf "VER2" c2Files.length = 72 ∧
    dataStartSector "VER2" c2Files.length = 1 ∧
    dirEntries (dataStartSector "VER2" c2Files.length) c2Files =
      [(1, 10, [97, 46, 100, 97, 116]), (2, 5000, [98, 46, 100, 97, 116])] ∧
    1 * SECTOR_SIZE = 2048 ∧ 2 * SECTOR_SIZE = 4096 := by
  refine ⟨by decide, by decide, ?_, by decide, by decide⟩
  have h1 : dataStartSector "VER2" c2Files.length = 1 := by decide
  rw [h1]
  simp only [c2Files, dirEntries, List.length_replicate]
  decide

/-! ### C3 and C9: what extract_img returns -/

/-- Shared helper: whenever the format is recognized and the entry count is
readable, `extract_img` returns the Python value `True` together with the
per-index writes, whatever those turn out to be. -/
lemma extract_img_success (s : List Nat) (n : Nat)
    (h1 : detect_img_format (some s) ≠ "INVALID")
    (h2 : get_entry_count s (detect_img_format (some s)) = some n) :
    extract_img (some s) =
      some (true, (List.range n).filterMap
        (extractEntry s (dirStartOf (detect_img_format (some s))))) := by
  simp only [extract_img, if_neg h1, h2]

/-- C3 counterexample: on `demoStore` the extraction writes two members but
the operation returns the Python boolean `True` (numeric value 1), so the
return value is not the count of members written — `extract_img` returns a
success flag, never a member count. -/
theorem c3_counterexample :
    extract_img (some demoStore) = some (true, demoWrites) ∧
    demoWrites.length ≠ Bool.toNat true := by
  exact ⟨by decide, by decide⟩

/-- C3 as amended: for every store whose format is recognized and whose
entry count is readable, `extract_img` returns the boolean `True` (plus its
side-effect writes); the member count is only printed, not returned. -/
theorem c3_extract_returns_flag :
    ∀ (s : List Nat) (n : Nat),
      detect_img_format (some s) ≠ "INVALID" →
      get_entry_count s (detect_img_format (some s)) = some n →
      ∃ ws, extract_img (some s) = some (true, ws) :=
  fun s n h1 h2 => ⟨_, extract_img_success s n h1 h2⟩

/-- Witness for `c3_extract_returns_flag` at `demoStore`. -/
theorem c3_witness : ∃ ws, extract_img (some demoStore) = some (true, ws) :=
  c3_extract_returns_flag demoStore 2 (by decide) (by decide)

/-! ### C5 -/

/-- What `info_img` actually reports on `demoStore` (entry count 2, entry
sizes 4 and 4, store size 72): the loop's Python variable `file_size` ends
up holding the last entry's size 4, so overhead = 4 - 8 = -4 and
efficiency = 8*100/4 = 200. -/
def demoInfo : ImgInfo :=
  { format := "VER2", entry_count := 2, header_size := 8, dir_size := 72
    data_start_sector := 1, data_start_byte := 2048, total_data_size := 8
    overhead := -4, efficiency := some 200 }

/-- C5: the claim is what the source intends by "Overhead"/"Efficiency", but
the totalling loop of `info_img` (line 534) rebinds the Python variable
`file_size` — which held the store's byte size — to each entry's size, so on
`demoStore` the code reports overhead -4 and efficiency 200 instead of the
claimed `72 - 8 = 64` and `8*100/72 = 11`. -/
theorem c5_info_shadowing_bug :
    info_img (some demoStore) = some demoInfo ∧
    demoStore.length = 72 ∧
    demoInfo.overhead ≠ (demoStore.length : Int) - (demoInfo.total_data_size : Int) ∧
    demoInfo.efficiency ≠ some (demoInfo.total_data_size * 100 / demoStore.length) := by
  refine ⟨by decide, by decide, by decide, by decide⟩

/-! ### C6 -/

/-- The loop invariant of the VER1 scan: starting from a count of at most
10000, the result never exceeds 10001 (the safety break fires right after
the count is incremented past 10000). -/
lemma scanGo_le (s : List Nat) :
    ∀ (fuel offset count : Nat), count ≤ 10000 → scanGo s fuel offset count ≤ 10001 := by
  intro fuel
  induction fuel with
  | zero => intro o c h; simpa [scanGo] using by omega
  | succ fuel ih =>
    intro o c h
    rw [scanGo]
    repeat' split
    all_goals first | omega | exact ih _ _ (by omega)

/-- C6 as amended: the VER1 entry-count scan always terminates with a result,
and that result never exceeds 10001 — one more than the 10000 safety ceiling,
because the source increments the count before testing `> 10000`. -/
theorem c6_scan_terminates_bounded :
    ∀ s : List Nat, ∃ n : Nat, get_entry_count s "VER1" = some n ∧ n ≤ 10001 := by
  intro s
  exact ⟨scanGo s (s.length / 32 + 1) 0 0, rfl, scanGo_le s _ 0 0 (by omega)⟩

/-- One well-formed-looking 32-byte VER1 record: start sector 1, size 1,
empty name. -/
def capBlock : List Nat := [1, 0, 0, 0, 1, 0, 0, 0] ++ List.replicate 24 0

/-- A VER1 store holding 10001 consecutive nonzero records, enough to push
the scan past its safety ceiling. -/
def capStore : List Nat := (List.replicate 10001 capBlock).flatten

lemma capBlock_length : capBlock.length = 32 := by decide

lemma flatten_replicate_capBlock_length :
    ∀ n : Nat, ((List.replicate n capBlock).flatten).length = n * 32 := by
  intro n
  induction n with
  | zero => rfl
  | succ n ih =>
    rw [List.replicate_succ, List.flatten_cons, List.length_append, ih, capBlock_length]
    omega

lemma capStore_length : capStore.length = 320032 := by
  rw [capStore, flatten_replicate_capBlock_length]

lemma capStore_drop : ∀ i : Nat, i ≤ 10001 →
    capStore.drop (32 * i) = (List.replicate (10001 - i) capBlock).flatten := by
  intro i
  induction i with
  | zero => intro _; rfl
  | succ i ih =>
    intro h
    have h32 : 32 * (i + 1) = 32 * i + 32 := by omega
    rw [h32, ← List.drop_drop, ih (by omega)]
    obtain ⟨m, hm⟩ : ∃ m, 10001 - i = m + 1 := ⟨10000 - i, by omega⟩
    rw [hm, List.replicate_succ, List.flatten_cons, List.drop_left' capBlock_length]
    have hm2 : 10001 - (i + 1) = m := by omega
    rw [hm2]

lemma capStore_read (i : Nat) (h : i < 10001) :
    readU32 capStore (32 * i) = some 1 ∧ readU32 capStore (32 * i + 4) = some 1 := by
  have h1 := capStore_drop i (by omega)
  obtain ⟨m, hm⟩ : ∃ m, 10001 - i = m + 1 := ⟨10000 - i, by omega⟩
  rw [hm, List.replicate_succ, List.flatten_cons] at h1
  constructor
  · rw [readU32_drop, h1]; rfl
  · rw [readU32_add, h1]; rfl

lemma capStore_scan :
    ∀ (d k fuel : Nat), k + d = 10000 → d + 1 ≤ fuel →
      scanGo capStore fuel (32 * k) k = 10001 := by
  intro d
  induction d with
  | zero =>
    intro k fuel hk hf
    obtain ⟨f, rfl⟩ : ∃ f, fuel = f + 1 := ⟨fuel - 1, by omega⟩
    obtain ⟨c1, c2⟩ := capStore_read k (by omega)
    have hl : 32 * k < capStore.length := by rw [capStore_length]; omega
    rw [scanGo, if_pos hl, c1, c2]
    norm_num
    rw [if_pos (by omega : (10000 : Nat) < k + 1)]
    omega
  | succ d ih =>
    intro k fuel hk hf
    obtain ⟨f, rfl⟩ : ∃ f, fuel = f + 1 := ⟨fuel - 1, by omega⟩
    obtain ⟨c1, c2⟩ := capStore_read k (by omega)
    have hl : 32 * k < capStore.length := by rw [capStore_length]; omega
    rw [scanGo, if_pos hl, c1, c2]
    norm_num
    rw [if_neg (by omega)]
    have h32 : 32 * k + 32 = 32 * (k + 1) := by omega
    rw [h32]
    exact ih (k + 1) f (by omega) (by omega)

/-- C6 counterexample: on a VER1 store of 10001 consecutive nonzero records
the scan returns 10001, exceeding the claimed 10000 ceiling — the source
increments `entry_count` to 10001 and only then breaks. -/
theorem c6_counterexample :
    get_entry_count capStore "VER1" = some 10001 ∧ 10000 < 10001 := by
  constructor
  · have h : get_entry_count capStore "VER1" =
        some (scanGo capStore (capStore.length / 32 + 1) 0 0) := rfl
    rw [h, capStore_length]
    norm_num
    have h2 := capStore_scan 10000 0 10002 (by omega) (by omega)
    simpa using h2
  · omega

/-! ### C7 -/

/-- A 24-byte name field whose content is the two bytes `" a"` (space, `a`)
followed by NUL padding. -/
def c7Field : List Nat := [32, 97] ++ List.replicate 22 0

/-- C7 counterexample: the two name decoders in the source disagree — for
the field `" a"` plus NUL padding, `extract_img`'s decoder (split at first
NUL, then strip) gives `"a"`, while `list_img_filtered`'s decoder (rstrip
NULs only, no strip) gives `" a"`. -/
theorem c7_counterexample :
    decodeNameExtract c7Field ≠ decodeNameList c7Field ∧
    decodeNameExtract c7Field = [97] ∧ decodeNameList c7Field = [32, 97] := by
  exact ⟨by decide, by decide, by decide⟩

lemma takeWhile_ne_zero_append (nm : List Nat) (k : Nat) (h : ∀ b ∈ nm, b ≠ 0) :
    (nm ++ List.replicate k 0).takeWhile (fun b => b ≠ 0) = nm := by
  induction nm with
  | nil =>
    cases k with
    | zero => rfl
    | succ k =>
      rw [List.nil_append, List.replicate_succ, List.takeWhile_cons _ _ _, if_neg (by simp)]
  | cons a t ih =>
    have ha : a ≠ 0 := h a (by simp)
    rw [List.cons_append, List.takeWhile_cons _ _ _, if_pos (by simp [ha]),
      ih (fun b hb => h b (by simp [hb]))]

lemma dropWhile_not_head (p : Nat → Bool) :
    ∀ l : List Nat, p (l.headD 0) = false → l.dropWhile p = l := by
  intro l h
  cases l with
  | nil => rfl
  | cons a t => simp only [List.headD] at h; simp [List.dropWhile, h]

lemma stripBytes_clean (nm : List Nat)
    (h1 : isSpaceByte (nm.headD 0) = false)
    (h2 : isSpaceByte (nm.reverse.headD 0) = false) :
    stripBytes nm = nm := by
  unfold stripBytes
  rw [dropWhile_not_head _ nm h1, dropWhile_not_head _ nm.reverse h2, List.reverse_reverse]

lemma dropWhile_zero_replicate_append (k : Nat) (l : List Nat) :
    (List.replicate k 0 ++ l).dropWhile (fun b => b == 0) = l.dropWhile (fun b => b == 0) := by
  induction k with
  | zero => rfl
  | succ k ih => simp [List.replicate_succ, List.dropWhile, ih]

lemma dropWhile_zero_of_ne (l : List Nat) (h : ∀ b ∈ l, b ≠ 0) :
    l.dropWhile (fun b => b == 0) = l := by
  cases l with
  | nil => rfl
  | cons a t =>
    have ha : a ≠ 0 := h a (by simp)
    rw [List.dropWhile_cons, if_neg (by simp [ha])]

/-- C7 as amended: the source has two distinct name decoders —
`extract_img` splits at the first NUL, strips whitespace and drops non-ASCII
bytes; `list_img_filtered` only strips trailing NULs and drops non-ASCII
bytes.  Both are total, and they agree on every field that is a NUL-free,
whitespace-trimmed name followed by NUL padding. -/
theorem c7_decoders_agree_on_clean :
    ∀ (nm : List Nat) (k : Nat),
      (∀ b ∈ nm, b ≠ 0) →
      isSpaceByte (nm.headD 0) = false →
      isSpaceByte (nm.reverse.headD 0) = false →
      decodeNameExtract (nm ++ List.replicate k 0) =
        decodeNameList (nm ++ List.replicate k 0) := by
  intro nm k h0 hh hl
  unfold decodeNameExtract decodeNameList
  rw [takeWhile_ne_zero_append nm k h0, stripBytes_clean nm hh hl]
  rw [List.reverse_append, List.reverse_replicate, dropWhile_zero_replicate_append]
  rw [dropWhile_zero_of_ne nm.reverse (fun b hb => h0 b (List.mem_reverse.mp hb))]
  rw [List.reverse_reverse]

/-- Witness for `c7_decoders_agree_on_clean` on the name `"a"` padded to 24
bytes. -/
theorem c7_witness :
    decodeNameExtract ([97] ++ List.replicate 23 0) =
      decodeNameList ([97] ++ List.replicate 23 0) :=
  c7_decoders_agree_on_clean [97] 23 (by decide) (by decide) (by decide)

/-! ### C9 -/

lemma filterMap_filter_ne {α : Type} (f : Nat → Option α) (i : Nat) (hf : f i = none) :
    ∀ l : List Nat, (l.filter (fun j => j ≠ i)).filterMap f = l.filterMap f := by
  intro l
  induction l with
  | nil => rfl
  | cons a t ih =>
    by_cases h : a = i
    · subst h
      rw [List.filter_cons, if_neg (by simp), ih, List.filterMap_cons, hf]
    · rw [List.filter_cons, if_pos (by simp [h]), List.filterMap_cons, List.filterMap_cons, ih]

/-- C9: if decoding or reading the record at index `i` fails (or the entry
is empty), only that index is dropped — the writes are exactly those of the
other indices — and the operation still returns `True` whenever the format
was recognized and the entry count was readable, even when nothing at all
was written. -/
theorem c9_per_entry_failure_skips :
    ∀ (s : List Nat) (n i : Nat),
      detect_img_format (some s) ≠ "INVALID" →
      get_entry_count s (detect_img_format (some s)) = some n →
      extractEntry s (dirStartOf (detect_img_format (some s))) i = none →
      extract_img (some s) =
        some (true, ((List.range n).filter (fun j => j ≠ i)).filterMap
          (extractEntry s (dirStartOf (detect_img_format (some s))))) := by
  intro s n i h1 h2 h3
  rw [extract_img_success s n h1 h2, filterMap_filter_ne _ i h3 (List.range n)]

/-- Witness for `c9_per_entry_failure_skips`: `demoStore3` claims 3 entries
but holds only 2 records; index 2 fails with a caught `struct.error`, the
other two members are still written and the operation reports `True`. -/
theorem c9_witness :
    extract_img (some demoStore3) =
      some (true, ((List.range 3).filter (fun j => j ≠ 2)).filterMap
        (extractEntry demoStore3 (dirStartOf (detect_img_format (some demoStore3))))) :=
  c9_per_entry_failure_skips demoStore3 3 2 (by decide) (by decide) (by decide)

/-! ### C8 -/

lemma hasFile_iff (l : List (List Nat × List Nat)) (nm : List Nat) :
    hasFile l nm = true ↔ ∃ f ∈ l, f.1 = nm := by
  simp [hasFile, List.any_eq_true]

lemma hasFile_dirInsert (acc : List (List Nat × List Nat)) (f : List Nat × List Nat)
    (nm : List Nat) :
    hasFile (dirInsert acc f) nm = true ↔ (hasFile acc nm = true ∨ f.1 = nm) := by
  unfold dirInsert
  split
  case isTrue hin =>
    rw [hasFile_iff, hasFile_iff]
    constructor
    · rintro ⟨g, hg, hgnm⟩
      obtain ⟨x, hx, rfl⟩ := List.mem_map.mp hg
      by_cases hxf : x.1 = f.1
      · simp only [hxf, if_pos rfl] at hgnm
        exact Or.inr hgnm
      · rw [if_neg hxf] at hgnm
        exact Or.inl ⟨x, hx, hgnm⟩
    · rintro (⟨g, hg, hgnm⟩ | hfnm)
      · by_cases hgf : g.1 = f.1
        · exact ⟨f, List.mem_map.mpr ⟨g, hg, by rw [if_pos hgf]⟩, hgf ▸ hgnm⟩
        · exact ⟨g, List.mem_map.mpr ⟨g, hg, by rw [if_neg hgf]⟩, hgnm⟩
      · obtain ⟨x, hx, hxf⟩ := (hasFile_iff acc f.1).mp hin
        exact ⟨f, List.mem_map.mpr ⟨x, hx, by rw [if_pos hxf]⟩, hfnm⟩
  case isFalse hout =>
    rw [hasFile_iff, hasFile_iff]
    constructor
    · rintro ⟨g, hg, hgnm⟩
      rcases List.mem_append.mp hg with h | h
      · exact Or.inl ⟨g, h, hgnm⟩
      · simp only [List.mem_singleton] at h
        exact Or.inr (h ▸ hgnm)
    · rintro (⟨g, hg, hgnm⟩ | hfnm)
      · exact ⟨g, List.mem_append.mpr (Or.inl hg), hgnm⟩
      · exact ⟨f, List.mem_append.mpr (Or.inr (by simp)), hfnm⟩

lemma hasFile_scratch_aux :
    ∀ (ws acc : List (List Nat × List Nat)) (nm : List Nat),
      hasFile (ws.foldl dirInsert acc) nm = true ↔
        (hasFile acc nm = true ∨ hasFile ws nm = true) := by
  intro ws
  induction ws with
  | nil =>
    intro acc nm
    simp [List.foldl, hasFile]
  | cons w ws ih =>
    intro acc nm
    rw [List.foldl_cons, ih (dirInsert acc w) nm, hasFile_dirInsert]
    have hw : hasFile (w :: ws) nm = true ↔ (w.1 = nm ∨ hasFile ws nm = true) := by
      simp [hasFile, List.any_cons]
    rw [hw]
    tauto

lemma hasFile_scratchOf (ws : List (List Nat × List Nat)) (nm : List Nat) :
    hasFile (scratchOf ws) nm = hasFile ws nm := by
  have h := hasFile_scratch_aux ws [] nm
  have h0 : hasFile [] nm = false := rfl
  cases hx : hasFile ws nm with
  | true => exact (h.mpr (Or.inr hx))
  | false =>
    cases hy : hasFile (scratchOf ws) nm with
    | true =>
      exfalso
      have hy2 : hasFile (ws.foldl dirInsert []) nm = true := hy
      rcases h.mp hy2 with h1 | h1
      · rw [h0] at h1; exact Bool.false_ne_true h1
      · rw [hx] at h1; exact Bool.false_ne_true h1
    | false => rfl

/-- C8: suppose extraction of the archive succeeds with member list `ws`.
If the target name `new_name` is already among the members, or if the source
name `old_name` is not among them, then `rename_in_img` fails on one of its
precondition checks and never reaches `create_img` — the result is `none`,
meaning the original store is never rewritten (the `ValidationError` paths
of the specification). -/
theorem c8_rename_precondition_failures :
    ∀ (store : Option (List Nat)) (old_name new_name : List Nat)
      (ws : List (List Nat × List Nat)),
      extract_img store = some (true, ws) →
      (hasFile ws new_name = true → rename_in_img store old_name new_name = none) ∧
      (hasFile ws old_name = false → rename_in_img store old_name new_name = none) := by
  intro store old_name new_name ws hx
  obtain ⟨s, rfl⟩ : ∃ s, store = some s := by
    cases store with
    | none => simp [extract_img] at hx
    | some s => exact ⟨s, rfl⟩
  have hfmt : detect_img_format (some s) ≠ "INVALID" := by
    intro h
    simp [extract_img, h] at hx
  constructor
  · intro hc
    simp only [rename_in_img, if_neg hfmt, hx]
    rw [if_neg (by simp : ¬(true = false))]
    split
    · rfl
    split
    · rfl
    split
    · rfl
    split
    · rfl
    · rename_i h4
      rw [hasFile_scratchOf] at h4
      exact absurd hc h4
  · intro hc
    simp only [rename_in_img, if_neg hfmt, hx]
    rw [if_neg (by simp : ¬(true = false))]
    split
    · rfl
    split
    · rfl
    split
    · rfl
    · rename_i h3
      rw [hasFile_scratchOf, hc] at h3
      exact absurd rfl h3

/-- Witness for `c8_rename_precondition_failures`: renaming `"a"` to `"b"`
in `demoStore` fails because `"b"` already exists, and renaming from the
absent `"c"` fails because the old name is missing; neither path rewrites
the store. -/
theorem c8_witness :
    rename_in_img (some demoStore) [97] [98] = none ∧
    rename_in_img (some demoStore) [99] [100] = none :=
  ⟨(c8_rename_precondition_failures (some demoStore) [97] [98] demoWrites (by decide)).1
      (by decide),
   (c8_rename_precondition_failures (some demoStore) [99] [100] demoWrites (by decide)).2
      (by decide)⟩

/-! ### C1: layout lemmas for the archive written by create_img -/

lemma nameField_length (nm : List Nat) : (nameField nm).length = 24 := by
  simp only [nameField, List.length_append, List.length_replicate, List.length_take]
  omega

lemma encodeEntry_length (e : Nat × Nat × List Nat) : (encodeEntry e).length = 32 := by
  simp only [encodeEntry, List.length_append, u32le_length, nameField_length]

lemma payloadBlock_length (d : List Nat) :
    (payloadBlock d).length = sectorsNeeded d.length * SECTOR_SIZE := by
  simp only [payloadBlock, sectorsNeeded, SECTOR_SIZE, List.length_append]
  split
  · simp only [List.length_nil]
    omega
  · simp only [List.length_replicate]
    omega

lemma payloadBlock_length_ge (d : List Nat) : d.length ≤ (payloadBlock d).length := by
  simp only [payloadBlock, List.length_append]
  omega

lemma dirEntries_length (files : List (List Nat × List Nat)) :
    ∀ c : Nat, (dirEntries c files).length = files.length := by
  induction files with
  | nil => intro c; rfl
  | cons f rest ih =>
    intro c
    obtain ⟨nm, d⟩ := f
    simp only [dirEntries, List.length_cons, ih]

lemma archDir_length (format_type : String) (files : List (List Nat × List Nat)) :
    (archDir format_type files).length = files.length * 32 := by
  unfold archDir
  generalize dataStartSector format_type files.length = c
  induction files generalizing c with
  | nil => rfl
  | cons f rest ih =>
    obtain ⟨nm, d⟩ := f
    simp only [dirEntries, List.map_cons, List.flatten_cons, List.length_append,
      encodeEntry_length, ih, List.length_cons]
    omega

lemma headerBytes_length (format_type : String) (n : Nat)
    (h : format_type = "VER1" ∨ format_type = "VER2") :
    (headerBytes format_type n).length = headerSizeOf format_type := by
  rcases h with rfl | rfl
  · rfl
  · simp [headerBytes, headerSizeOf, verMagic, u32le]

lemma dirSize_le_dsb (format_type : String) (n : Nat) :
    dirSizeOf format_type n ≤ dataStartSector format_type n * SECTOR_SIZE := by
  simp only [dataStartSector, SECTOR_SIZE]
  omega

lemma prefix_length (format_type : String) (files : List (List Nat × List Nat))
    (h : format_type = "VER1" ∨ format_type = "VER2") :
    (headerBytes format_type files.length ++ archDir format_type files
      ++ archPad format_type files).length =
      dataStartSector format_type files.length * SECTOR_SIZE := by
  have h1 := headerBytes_length format_type files.length h
  have h2 := archDir_length format_type files
  have h3 := dirSize_le_dsb format_type files.length
  simp only [List.length_append, h1, h2, archPad, List.length_replicate]
  simp only [dirSizeOf] at h3 ⊢
  omega

/-- The running sector assigned to index `i`: the data start plus the
sectors consumed by the earlier files. -/
def sectorAt (c : Nat) (files : List (List Nat × List Nat)) (i : Nat) : Nat :=
  c + (((files.take i).map (fun f => sectorsNeeded f.2.length)).sum)

lemma dirEntries_getD (files : List (List Nat × List Nat)) :
    ∀ (c i : Nat), i < files.length →
      (dirEntries c files).getD i (0, 0, []) =
        (sectorAt c files i, (files.getD i ([], [])).2.length,
          (files.getD i ([], [])).1.take 24) := by
  induction files with
  | nil => intro c i hi; simp at hi
  | cons f rest ih =>
    intro c i hi
    obtain ⟨nm, d⟩ := f
    cases i with
    | zero => simp [dirEntries, sectorAt]
    | succ i =>
      simp only [dirEntries, List.getD_cons_succ, sectorAt, List.take_succ_cons,
        List.map_cons, List.sum_cons]
      rw [ih (c + sectorsNeeded d.length) i (by simpa using hi)]
      simp only [sectorAt, Nat.add_assoc]

lemma dirBytes_drop (files : List (List Nat × List Nat)) :
    ∀ (c i : Nat), i < files.length →
      ∃ rest, ((dirEntries c files).map encodeEntry).flatten.drop (i * 32) =
        encodeEntry ((dirEntries c files).getD i (0, 0, [])) ++ rest := by
  induction files with
  | nil => intro c i hi; simp at hi
  | cons f rest ih =>
    intro c i hi
    obtain ⟨nm, d⟩ := f
    cases i with
    | zero =>
      refine ⟨((dirEntries (c + sectorsNeeded d.length) rest).map encodeEntry).flatten, ?_⟩
      simp [dirEntries, List.flatten_cons]
    | succ i =>
      obtain ⟨tail, htail⟩ := ih (c + sectorsNeeded d.length) i (by simpa using hi)
      refine ⟨tail, ?_⟩
      simp only [dirEntries, List.map_cons, List.flatten_cons, List.getD_cons_succ]
      have hlen : (i + 1) * 32 = (encodeEntry (c, d.length, nm.take 24)).length + i * 32 := by
        rw [encodeEntry_length]; omega
      rw [hlen, List.drop_append, htail]

lemma payload_drop (files : List (List Nat × List Nat)) :
    ∀ i : Nat, i < files.length →
      ∃ rest, (archPay files).drop
          ((((files.take i).map (fun f => sectorsNeeded f.2.length)).sum) * SECTOR_SIZE) =
        (files.getD i ([], [])).2 ++ rest := by
  induction files with
  | nil => intro i hi; simp at hi
  | cons f frest ih =>
    intro i hi
    obtain ⟨nm, d⟩ := f
    cases i with
    | zero =>
      refine ⟨(if SECTOR_SIZE - d.length % SECTOR_SIZE = SECTOR_SIZE then []
          else List.replicate (SECTOR_SIZE - d.length % SECTOR_SIZE) 0) ++ (archPay frest), ?_⟩
      simp only [archPay, List.map_cons, List.flatten_cons, List.take_zero, List.map_nil,
        List.sum_nil, Nat.zero_mul, List.drop_zero, List.getD_cons_zero, payloadBlock]
      rw [List.append_assoc]
    | succ i =>
      obtain ⟨tail, htail⟩ := ih i (by simpa using hi)
      refine ⟨tail, ?_⟩
      simp only [archPay, List.map_cons, List.flatten_cons, List.getD_cons_succ,
        List.take_succ_cons, List.sum_cons]
      have hlen : (sectorsNeeded d.length + ((frest.take i).map
          (fun f => sectorsNeeded f.2.length)).sum) * SECTOR_SIZE =
          (payloadBlock d).length +
            (((frest.take i).map (fun f => sectorsNeeded f.2.length)).sum) * SECTOR_SIZE := by
        rw [payloadBlock_length]; ring
      rw [hlen, List.drop_append]
      simpa [archPay] using htail

lemma arch_dir_drop (format_type : String) (files : List (List Nat × List Nat))
    (h : format_type = "VER1" ∨ format_type = "VER2") (i : Nat) (hi : i < files.length) :
    ∃ rest, (archiveOf format_type files).drop (headerSizeOf format_type + i * 32) =
      encodeEntry ((dirEntries (dataStartSector format_type files.length) files).getD
        i (0, 0, [])) ++ rest := by
  obtain ⟨tail, htail⟩ := dirBytes_drop files (dataStartSector format_type files.length) i hi
  have hhb := headerBytes_length format_type files.length h
  have hle : i * 32 ≤
      (((dirEntries (dataStartSector format_type files.length) files).map
        encodeEntry).flatten).length := by
    have hd := archDir_length format_type files
    unfold archDir at hd
    rw [hd]
    omega
  refine ⟨tail ++ (archPad format_type files ++ archPay files), ?_⟩
  unfold archiveOf archDir
  rw [List.append_assoc, List.append_assoc, ← hhb, List.drop_append,
    List.drop_append_of_le_length hle, htail, List.append_assoc]

lemma readU32_u32le_at4 (a v : Nat) (Y : List Nat) (hv : v < 4294967296) :
    readU32 (u32le a ++ (u32le v ++ Y)) 4 = some v := by
  rw [readU32_drop, List.drop_left' (u32le_length a)]
  exact readU32_u32le v Y hv

lemma arch_read_sector (format_type : String) (files : List (List Nat × List Nat))
    (h : format_type = "VER1" ∨ format_type = "VER2") (i : Nat) (hi : i < files.length)
    (hv : ((dirEntries (dataStartSector format_type files.length) files).getD
      i (0, 0, [])).1 < 4294967296) :
    readU32 (archiveOf format_type files) (headerSizeOf format_type + i * 32) =
      some ((dirEntries (dataStartSector format_type files.length) files).getD
        i (0, 0, [])).1 := by
  obtain ⟨rest, hrest⟩ := arch_dir_drop format_type files h i hi
  rw [readU32_drop, hrest]
  unfold encodeEntry
  rw [List.append_assoc]
  exact readU32_u32le _ _ hv

lemma arch_read_size (format_type : String) (files : List (List Nat × List Nat))
    (h : format_type = "VER1" ∨ format_type = "VER2") (i : Nat) (hi : i < files.length)
    (hv : ((dirEntries (dataStartSector format_type files.length) files).getD
      i (0, 0, [])).2.1 < 4294967296) :
    readU32 (archiveOf format_type files) (headerSizeOf format_type + i * 32 + 4) =
      some ((dirEntries (dataStartSector format_type files.length) files).getD
        i (0, 0, [])).2.1 := by
  obtain ⟨rest, hrest⟩ := arch_dir_drop format_type files h i hi
  rw [readU32_add, hrest]
  unfold encodeEntry
  rw [List.append_assoc, List.append_assoc]
  exact readU32_u32le_at4 _ _ _ hv

lemma arch_read_name (format_type : String) (files : List (List Nat × List Nat))
    (h : format_type = "VER1" ∨ format_type = "VER2") (i : Nat) (hi : i < files.length) :
    readBytes (archiveOf format_type files) (headerSizeOf format_type + i * 32 + 8) 24 =
      nameField ((dirEntries (dataStartSector format_type files.length) files).getD
        i (0, 0, [])).2.2 := by
  obtain ⟨rest, hrest⟩ := arch_dir_drop format_type files h i hi
  unfold readBytes
  rw [← List.drop_drop, hrest]
  unfold encodeEntry
  rw [List.append_assoc, List.drop_left' (by simp [List.length_append, u32le_length]),
    List.take_left' (nameField_length _)]

lemma arch_read_payload (format_type : String) (files : List (List Nat × List Nat))
    (h : format_type = "VER1" ∨ format_type = "VER2") (i : Nat) (hi : i < files.length) :
    readBytes (archiveOf format_type files)
        ((sectorAt (dataStartSector format_type files.length) files i) * SECTOR_SIZE)
        ((files.getD i ([], [])).2.length) =
      (files.getD i ([], [])).2 := by
  obtain ⟨rest, hrest⟩ := payload_drop files i hi
  have harch : archiveOf format_type files =
      (headerBytes format_type files.length ++ archDir format_type files
        ++ archPad format_type files) ++ archPay files := by
    unfold archiveOf
    simp [List.append_assoc]
  have hoff : (sectorAt (dataStartSector format_type files.length) files i) * SECTOR_SIZE =
      (headerBytes format_type files.length ++ archDir format_type files
        ++ archPad format_type files).length +
      (((files.take i).map (fun f => sectorsNeeded f.2.length)).sum) * SECTOR_SIZE := by
    rw [prefix_length format_type files h]
    unfold sectorAt
    ring
  unfold readBytes
  rw [harch, hoff, List.drop_append, hrest, List.take_left]

/-- A member name round-trips through the directory codec when it is
nonempty, at most 24 bytes, made of nonzero ASCII bytes, and carries no
surrounding whitespace (otherwise `strip` or the NUL split would alter it). -/
def cleanName (nm : List Nat) : Prop :=
  nm ≠ [] ∧ nm.length ≤ 24 ∧ (∀ b ∈ nm, 0 < b ∧ b < 128) ∧
    isSpaceByte (nm.headD 0) = false ∧ isSpaceByte (nm.reverse.headD 0) = false

instance (nm : List Nat) : Decidable (cleanName nm) := by
  unfold cleanName
  infer_instance

lemma decodeNameExtract_nameField (nm : List Nat) (h : cleanName nm) :
    decodeNameExtract (nameField nm) = nm := by
  obtain ⟨h1, h2, h3, h4, h5⟩ := h
  have ht : nm.take 24 = nm := List.take_of_length_le h2
  unfold nameField decodeNameExtract
  rw [ht, takeWhile_ne_zero_append nm _ (fun b hb => by have := h3 b hb; omega),
    stripBytes_clean nm h4 h5]
  exact List.filter_eq_self.mpr (fun b hb => by have := h3 b hb; simpa using this.2)

lemma filterMap_range_eq_map {α : Type} (f : Nat → Option α) (g : Nat → α) :
    ∀ n : Nat, (∀ i, i < n → f i = some (g i)) →
      (List.range n).filterMap f = (List.range n).map g := by
  intro n
  induction n with
  | zero => intro _; rfl
  | succ n ih =>
    intro h
    rw [List.range_succ, List.filterMap_append, List.map_append,
      ih (fun i hi => h i (by omega))]
    congr 1
    rw [List.filterMap_cons, h n (by omega)]
    rfl

lemma map_getD_range {α : Type} (l : List α) (d : α) :
    (List.range l.length).map (fun i => l.getD i d) = l := by
  induction l with
  | nil => rfl
  | cons a t ih =>
    rw [List.length_cons, List.range_succ_eq_map, List.map_cons, List.map_map]
    simp only [List.getD_cons_zero]
    have hfun : ((fun i => (a :: t).getD i d) ∘ Nat.succ) = (fun i => t.getD i d) := by
      funext i
      simp [Function.comp, List.getD_cons_succ]
    rw [hfun, ih]

lemma sum_take_le_sum (l : List Nat) (i : Nat) : (l.take i).sum ≤ l.sum := by
  conv_rhs => rw [← List.take_append_drop i l]
  rw [List.sum_append]
  omega

lemma sectorAt_le (c : Nat) (files : List (List Nat × List Nat)) (i : Nat) :
    sectorAt c files i ≤ c + (files.map (fun f => sectorsNeeded f.2.length)).sum := by
  unfold sectorAt
  rw [List.map_take]
  have := sum_take_le_sum (files.map (fun f => sectorsNeeded f.2.length)) i
  omega

lemma extractEntry_archive (format_type : String) (files : List (List Nat × List Nat))
    (h : format_type = "VER1" ∨ format_type = "VER2") (i : Nat) (hi : i < files.length)
    (hclean : cleanName (files.getD i ([], [])).1)
    (hlo : 1 ≤ (files.getD i ([], [])).2.length)
    (hhi : (files.getD i ([], [])).2.length < 4294967296)
    (hsec : sectorAt (dataStartSector format_type files.length) files i < 4294967296) :
    extractEntry (archiveOf format_type files) (headerSizeOf format_type) i =
      some (files.getD i ([], [])) := by
  have hE := dirEntries_getD files (dataStartSector format_type files.length) i hi
  have r1 := arch_read_sector format_type files h i hi (by rw [hE]; exact hsec)
  have r2 := arch_read_size format_type files h i hi (by rw [hE]; exact hhi)
  have r3 := arch_read_name format_type files h i hi
  rw [hE] at r1 r2 r3
  have ht : (files.getD i ([], [])).1.take 24 = (files.getD i ([], [])).1 :=
    List.take_of_length_le hclean.2.1
  rw [ht] at r3
  simp only [extractEntry, r1, r2, r3]
  rw [decodeNameExtract_nameField _ hclean]
  rw [if_neg (by push_neg; exact ⟨hclean.1, by omega⟩)]
  rw [arch_read_payload format_type files h i hi]

/-! ### C1: how detection and entry-count resolution behave on a built archive -/

lemma arch_length_eq (format_type : String) (files : List (List Nat × List Nat))
    (h : format_type = "VER1" ∨ format_type = "VER2") :
    (archiveOf format_type files).length =
      dataStartSector format_type files.length * SECTOR_SIZE + (archPay files).length := by
  have harch : archiveOf format_type files =
      (headerBytes format_type files.length ++ archDir format_type files
        ++ archPad format_type files) ++ archPay files := by
    unfold archiveOf
    simp [List.append_assoc]
  rw [harch, List.length_append, prefix_length format_type files h]

lemma archPay_ge_first (files : List (List Nat × List Nat)) (hne : files ≠ []) :
    (files.getD 0 ([], [])).2.length ≤ (archPay files).length := by
  obtain ⟨f, t, rfl⟩ := List.exists_cons_of_ne_nil hne
  have hp := payloadBlock_length_ge f.2
  simp only [archPay, List.map_cons, List.flatten_cons, List.length_append,
    List.getD_cons_zero]
  omega

lemma detect_arch_v2 (files : List (List Nat × List Nat)) :
    detect_img_format (some (archiveOf "VER2" files)) = "VER2" := by
  have h4 : (archiveOf "VER2" files).take 4 = verMagic := by
    unfold archiveOf headerBytes
    rw [if_pos rfl, List.append_assoc, List.append_assoc, List.append_assoc]
    have hv4 : verMagic.length = 4 := rfl
    exact List.take_left' hv4
  simp only [detect_img_format, h4, if_true]

lemma count_arch_v2 (files : List (List Nat × List Nat))
    (hn : files.length < 4294967296) :
    get_entry_count (archiveOf "VER2" files) "VER2" = some files.length := by
  unfold get_entry_count
  rw [if_pos rfl]
  unfold archiveOf headerBytes
  rw [if_pos rfl, List.append_assoc, List.append_assoc, List.append_assoc]
  have hv4 : verMagic.length = 4 := rfl
  rw [readU32_drop, List.drop_left' hv4]
  exact readU32_u32le files.length _ hn

lemma dataStartSector_v1_le (n : Nat) (hn : n ≤ 10000) :
    dataStartSector "VER1" n ≤ 157 := by
  have h0 : headerSizeOf "VER1" = 0 := rfl
  simp only [dataStartSector, dirSizeOf, h0, SECTOR_SIZE]
  omega

lemma dataStartSector_pos (format_type : String) (n : Nat) (hn : 1 ≤ n) :
    1 ≤ dataStartSector format_type n := by
  simp only [dataStartSector, dirSizeOf, SECTOR_SIZE]
  omega

lemma arch_v1_first_entry (files : List (List Nat × List Nat)) (hne : files ≠ [])
    (hn : files.length ≤ 10000)
    (hsz : (files.getD 0 ([], [])).2.length < 4294967296) :
    readU32 (archiveOf "VER1" files) 0 = some (dataStartSector "VER1" files.length) ∧
    readU32 (archiveOf "VER1" files) 4 = some (files.getD 0 ([], [])).2.length := by
  have hpos : 0 < files.length := List.length_pos.mpr hne
  have hE := dirEntries_getD files (dataStartSector "VER1" files.length) 0 hpos
  have hs0 : sectorAt (dataStartSector "VER1" files.length) files 0 =
      dataStartSector "VER1" files.length := by
    simp [sectorAt]
  have hds : dataStartSector "VER1" files.length ≤ 157 :=
    dataStartSector_v1_le files.length hn
  have h00 : headerSizeOf "VER1" + 0 * 32 = 0 := rfl
  constructor
  · have r := arch_read_sector "VER1" files (Or.inl rfl) 0 hpos
      (by rw [hE]; simp only [hs0]; omega)
    rw [h00, hE, hs0] at r
    exact r
  · have r := arch_read_size "VER1" files (Or.inl rfl) 0 hpos (by rw [hE]; exact hsz)
    rw [hE] at r
    have h04 : headerSizeOf "VER1" + 0 * 32 + 4 = 4 := rfl
    rw [h04] at r
    exact r

lemma arch_v1_not_magic (files : List (List Nat × List Nat)) (hne : files ≠ [])
    (hn : files.length ≤ 10000) :
    (archiveOf "VER1" files).take 4 ≠ verMagic := by
  have hpos : 0 < files.length := List.length_pos.mpr hne
  obtain ⟨rest, hr⟩ := arch_dir_drop "VER1" files (Or.inl rfl) 0 hpos
  have h00 : headerSizeOf "VER1" + 0 * 32 = 0 := rfl
  rw [h00, List.drop_zero] at hr
  have hE := dirEntries_getD files (dataStartSector "VER1" files.length) 0 hpos
  have hs0 : sectorAt (dataStartSector "VER1" files.length) files 0 =
      dataStartSector "VER1" files.length := by
    simp [sectorAt]
  have htake : (archiveOf "VER1" files).take 4 =
      u32le (dataStartSector "VER1" files.length) := by
    rw [hr, hE, hs0]
    unfold encodeEntry
    rw [List.append_assoc, List.append_assoc]
    exact List.take_left' (u32le_length _)
  rw [htake]
  have hds : dataStartSector "VER1" files.length ≤ 157 :=
    dataStartSector_v1_le files.length hn
  intro hmag
  simp only [u32le, verMagic, List.cons.injEq, and_true] at hmag
  omega

lemma detect_arch_v1 (files : List (List Nat × List Nat)) (hne : files ≠ [])
    (hn : files.length ≤ 10000)
    (hlo : 1 ≤ (files.getD 0 ([], [])).2.length)
    (hhi : (files.getD 0 ([], [])).2.length < 4294967296) :
    detect_img_format (some (archiveOf "VER1" files)) = "VER1" := by
  have hpos : 0 < files.length := List.length_pos.mpr hne
  obtain ⟨r0, r4⟩ := arch_v1_first_entry files hne hn hhi
  have hlen := arch_length_eq "VER1" files (Or.inl rfl)
  have hds1 : 1 ≤ dataStartSector "VER1" files.length :=
    dataStartSector_pos "VER1" files.length hpos
  have hpay := archPay_ge_first files hne
  have hlarge : ¬((archiveOf "VER1" files).length < 32) := by
    rw [hlen]
    simp only [SECTOR_SIZE]
    omega
  have hszlt : (files.getD 0 ([], [])).2.length < (archiveOf "VER1" files).length := by
    rw [hlen]
    simp only [SECTOR_SIZE]
    omega
  simp only [detect_img_format, if_neg (arch_v1_not_magic files hne hn), if_neg hlarge,
    r0, r4]
  exact if_pos ⟨by omega, by omega, hszlt⟩

lemma scanGo_exact (s : List Nat) (n : Nat) (hn : n ≤ 10000)
    (hread : ∀ j, j < n → ∃ a b, readU32 s (32 * j) = some a ∧
      readU32 s (32 * j + 4) = some b ∧ 0 < a ∧ 0 < b)
    (hterm0 : readU32 s (32 * n) = some 0) (hterm4 : readU32 s (32 * n + 4) = some 0)
    (hlen : 32 * n < s.length) :
    ∀ d k fuel, k + d = n → d + 1 ≤ fuel → scanGo s fuel (32 * k) k = n := by
  intro d
  induction d with
  | zero =>
    intro k fuel hk hf
    obtain ⟨f, rfl⟩ : ∃ f, fuel = f + 1 := ⟨fuel - 1, by omega⟩
    have hkn : k = n := by omega
    subst hkn
    rw [scanGo, if_pos hlen, hterm0, hterm4]
    simp
  | succ d ih =>
    intro k fuel hk hf
    obtain ⟨f, rfl⟩ : ∃ f, fuel = f + 1 := ⟨fuel - 1, by omega⟩
    obtain ⟨a, b, r0, r4, ha, hb⟩ := hread k (by omega)
    have hl : 32 * k < s.length := by omega
    rw [scanGo, if_pos hl, r0, r4]
    simp only [if_neg (show ¬(a = 0 ∧ b = 0) by omega), if_pos (show 0 < a ∧ 0 < b from ⟨ha, hb⟩),
      if_neg (show ¬(k + 1 > 10000) by omega)]
    have h32 : 32 * k + 32 = 32 * (k + 1) := by omega
    rw [h32]
    exact ih (k + 1) f (by omega) (by omega)

lemma count_arch_v1 (files : List (List Nat × List Nat)) (hne : files ≠ [])
    (hn : files.length ≤ 10000) (hmod : 32 * files.length % 2048 ≠ 0)
    (hsize : ∀ f ∈ files, 1 ≤ f.2.length ∧ f.2.length < 4294967296)
    (hsect : (files.map (fun f => sectorsNeeded f.2.length)).sum
      + dataStartSector "VER1" files.length < 4294967296) :
    get_entry_count (archiveOf "VER1" files) "VER1" = some files.length := by
  have h0 : headerSizeOf "VER1" = 0 := rfl
  have hhb0 : headerBytes "VER1" files.length = [] := rfl
  have hdl := archDir_length "VER1" files
  have hlenA := arch_length_eq "VER1" files (Or.inl rfl)
  have harchsplit : archiveOf "VER1" files =
      archDir "VER1" files ++ (archPad "VER1" files ++ archPay files) := by
    unfold archiveOf
    rw [hhb0, List.nil_append, List.append_assoc]
  have hdirlen : 32 * files.length = (archDir "VER1" files).length := by
    rw [hdl]; ring
  -- the zero padding after the directory is at least 32 bytes long
  have hpadlen : (archPad "VER1" files).length =
      dataStartSector "VER1" files.length * SECTOR_SIZE - 32 * files.length := by
    simp only [archPad, List.length_replicate, dirSizeOf, h0]
    congr 1
    omega
  have hpadge : 8 ≤ (archPad "VER1" files).length := by
    rw [hpadlen]
    simp only [dataStartSector, dirSizeOf, h0, SECTOR_SIZE] at hmod ⊢
    omega
  have hterm : readU32 (archiveOf "VER1" files) (32 * files.length) = some 0 ∧
      readU32 (archiveOf "VER1" files) (32 * files.length + 4) = some 0 := by
    have hdrop : (archiveOf "VER1" files).drop (32 * files.length) =
        archPad "VER1" files ++ archPay files := by
      rw [harchsplit, hdirlen]
      exact List.drop_left _ _
    have hrep : archPad "VER1" files =
        List.replicate ((archPad "VER1" files).length) 0 := by
      simp [archPad, List.length_replicate]
    constructor
    · rw [readU32_drop, hdrop, hrep]
      exact readU32_replicate_zero _ _ (by omega)
    · rw [readU32_add, hdrop, hrep]
      rw [readU32_drop, List.drop_append_of_le_length (by rw [List.length_replicate]; omega),
        List.drop_replicate]
      exact readU32_replicate_zero _ _ (by omega)
  have hlenbig : 32 * files.length < (archiveOf "VER1" files).length := by
    rw [hlenA]
    have := dirSize_le_dsb "VER1" files.length
    simp only [dirSizeOf, h0, SECTOR_SIZE] at this ⊢
    have hp8 := hpadge
    rw [hpadlen] at hp8
    simp only [SECTOR_SIZE] at hp8
    omega
  have hread : ∀ j, j < files.length → ∃ a b,
      readU32 (archiveOf "VER1" files) (32 * j) = some a ∧
      readU32 (archiveOf "VER1" files) (32 * j + 4) = some b ∧ 0 < a ∧ 0 < b := by
    intro j hj
    have hE := dirEntries_getD files (dataStartSector "VER1" files.length) j hj
    have hmem : files.getD j ([], []) ∈ files := by
      rw [List.getD_eq_getElem files ([], []) hj]
      exact List.getElem_mem hj
    have hsj := hsize (files.getD j ([], [])) hmem
    have hsecle := sectorAt_le (dataStartSector "VER1" files.length) files j
    have hsecbound : sectorAt (dataStartSector "VER1" files.length) files j < 4294967296 := by
      omega
    have r0 := arch_read_sector "VER1" files (Or.inl rfl) j hj (by rw [hE]; exact hsecbound)
    have r4 := arch_read_size "VER1" files (Or.inl rfl) j hj (by rw [hE]; exact hsj.2)
    rw [hE] at r0 r4
    have hoff : headerSizeOf "VER1" + j * 32 = 32 * j := by rw [h0]; ring
    rw [hoff] at r0 r4
    refine ⟨sectorAt (dataStartSector "VER1" files.length) files j,
      (files.getD j ([], [])).2.length, r0, r4, ?_, by omega⟩
    have hds1 : 1 ≤ dataStartSector "VER1" files.length :=
      dataStartSector_pos "VER1" files.length (List.length_pos.mpr hne)
    simp only [sectorAt]
    omega
  unfold get_entry_count
  rw [if_neg (by decide), if_pos rfl]
  congr 1
  have hfuel : files.length + 1 ≤ (archiveOf "VER1" files).length / 32 + 1 := by
    omega
  have := scanGo_exact (archiveOf "VER1" files) files.length hn hread hterm.1 hterm.2
    hlenbig files.length 0 ((archiveOf "VER1" files).length / 32 + 1) (by omega) hfuel
  simpa using this

lemma dirStart_eq_headerSize (format_type : String)
    (h : format_type = "VER1" ∨ format_type = "VER2") :
    dirStartOf format_type = headerSizeOf format_type := by
  rcases h with rfl | rfl <;> rfl

lemma extract_arch_eq (format_type : String) (files : List (List Nat × List Nat))
    (h : format_type = "VER1" ∨ format_type = "VER2")
    (hdet : detect_img_format (some (archiveOf format_type files)) = format_type)
    (hcount : get_entry_count (archiveOf format_type files) format_type = some files.length)
    (hpoint : ∀ i, i < files.length →
      extractEntry (archiveOf format_type files) (dirStartOf format_type) i =
        some (files.getD i ([], []))) :
    extract_img (some (archiveOf format_type files)) = some (true, files) := by
  have hni : format_type ≠ "INVALID" := by rcases h with rfl | rfl <;> decide
  simp only [extract_img, hdet, if_neg hni, hcount]
  congr 1
  congr 1
  rw [filterMap_range_eq_map _ (fun i => files.getD i ([], [])) files.length hpoint]
  exact map_getD_range files ([], [])

/-- C1 as amended: building an archive and extracting it returns exactly the
member list, byte for byte and name for name, provided every member has a
clean name (nonempty, at most 24 nonzero non-whitespace-delimited ASCII
bytes), a size of at least 1 byte fitting in 32 bits, and the sector totals
fit in 32 bits; for the headerless `V1` layout the member count must also be
at most 10000 (the scan safety ceiling) and not a multiple of 64 (otherwise
the directory is sector-aligned and the scan runs into the payload). -/
theorem c1_roundtrip_amended :
    ∀ files : List (List Nat × List Nat),
      files ≠ [] →
      (∀ f ∈ files, cleanName f.1) →
      (∀ f ∈ files, 1 ≤ f.2.length ∧ f.2.length < 4294967296) →
      (files.length < 4294967296 →
        (files.map (fun f => sectorsNeeded f.2.length)).sum
            + dataStartSector "VER2" files.length < 4294967296 →
        ∃ a, create_img "VER2" files = some a ∧
          extract_img (some a) = some (true, files)) ∧
      (files.length ≤ 10000 →
        32 * files.length % 2048 ≠ 0 →
        (files.map (fun f => sectorsNeeded f.2.length)).sum
            + dataStartSector "VER1" files.length < 4294967296 →
        ∃ a, create_img "VER1" files = some a ∧
          extract_img (some a) = some (true, files)) := by
  intro files hne hclean hsize
  have hpoint : ∀ format_type, (format_type = "VER1" ∨ format_type = "VER2") →
      (files.map (fun f => sectorsNeeded f.2.length)).sum
          + dataStartSector format_type files.length < 4294967296 →
      ∀ i, i < files.length →
        extractEntry (archiveOf format_type files) (dirStartOf format_type) i =
          some (files.getD i ([], [])) := by
    intro format_type hf hs i hi
    have hmem : files.getD i ([], []) ∈ files := by
      rw [List.getD_eq_getElem files ([], []) hi]
      exact List.getElem_mem hi
    have hsecle := sectorAt_le (dataStartSector format_type files.length) files i
    rw [dirStart_eq_headerSize format_type hf]
    exact extractEntry_archive format_type files hf i hi (hclean _ hmem)
      (hsize _ hmem).1 (hsize _ hmem).2 (by omega)
  constructor
  · intro hn32 hsect
    refine ⟨archiveOf "VER2" files, ?_, ?_⟩
    · unfold create_img
      rw [if_pos (Or.inr rfl), if_neg hne]
    · exact extract_arch_eq "VER2" files (Or.inr rfl) (detect_arch_v2 files)
        (count_arch_v2 files hn32) (hpoint "VER2" (Or.inr rfl) hsect)
  · intro h10k hmod hsect
    have hpos : 0 < files.length := List.length_pos.mpr hne
    have hmem0 : files.getD 0 ([], []) ∈ files := by
      rw [List.getD_eq_getElem files ([], []) hpos]
      exact List.getElem_mem hpos
    refine ⟨archiveOf "VER1" files, ?_, ?_⟩
    · unfold create_img
      rw [if_pos (Or.inl rfl), if_neg hne]
    · exact extract_arch_eq "VER1" files (Or.inl rfl)
        (detect_arch_v1 files hne h10k (hsize _ hmem0).1 (hsize _ hmem0).2)
        (count_arch_v1 files hne h10k hmod hsize hsect)
        (hpoint "VER1" (Or.inl rfl) hsect)

/-- A member set allowed by the claim as stated: one member named `"a"`
(1 byte ≤ 24, ASCII) whose payload is empty (size 0 ≥ 0). -/
def c1CexFiles : List (List Nat × List Nat) := [([97], [])]

/-- C1 counterexample: building a VER2 archive from the single zero-size
member `"a"` succeeds, but extraction writes no members at all — the
extraction loop skips any entry with `file_size == 0` — so the extracted
name set is empty while the input name set is `{"a"}`; the round-trip fails
for size-0 members even though the claim allows sizes ≥ 0. -/
theorem c1_counterexample :
    create_img "VER2" c1CexFiles = some (archiveOf "VER2" c1CexFiles) ∧
    extract_img (some (archiveOf "VER2" c1CexFiles)) = some (true, []) ∧
    c1CexFiles.map Prod.fst = [[97]] := by
  exact ⟨rfl, by decide, by decide⟩

/-- Witness for `c1_roundtrip_amended`: the single member `"a"` with the
1-byte payload `[5]` round-trips through both layouts. -/
theorem c1_witness :
    (∃ a, create_img "VER2" [([97], [5])] = some a ∧
      extract_img (some a) = some (true, [([97], [5])])) ∧
    (∃ a, create_img "VER1" [([97], [5])] = some a ∧
      extract_img (some a) = some (true, [([97], [5])])) :=
  ⟨(c1_roundtrip_amended [([97], [5])] (by decide) (by decide) (by decide)).1
      (by decide) (by decide),
   (c1_roundtrip_amended [([97], [5])] (by decide) (by decide) (by decide)).2
      (by decide) (by decide) (by decide)⟩
